import Mathlib

/-!
Verification development for the polyautomate backtesting core.

This file shallowly embeds, in Lean 4 over exact rational arithmetic, the parts
of the repository that the checked properties talk about:

* src/polyautomate/analytics/models.py     (Signal, TradeSignal, Trade, BacktestResult stats)
* src/polyautomate/analytics/stats.py      (wilson_ci)
* src/polyautomate/analytics/engine.py     (execution prices, exit logic, the run loop)
* src/polyautomate/analytics/indicators.py (rsi, bollinger, macd, momentum, realized_vol,
                                            book indicators, compute_features)
* src/polyautomate/analytics/strategies/optimal_entry.py      (EntryProfile, scan_optimal_entries)
* src/polyautomate/analytics/strategies/rsi_mean_reversion.py (RSIMeanReversionStrategy.on_step)

Python floats are modelled as rationals.  Where the source applies a
transcendental function (math.sqrt, math.log) the embedding is parametrised by
an arbitrary function sqrtQ / logQ : ℚ → ℚ standing for that primitive; every
theorem below either holds for all interpretations of these parameters or
explicitly fixes one, so no property depends on floating-point behaviour.
Python exceptions (ValueError paths) are modelled by Option; division by zero
cannot occur on any path exercised by the theorems (Lean's x / 0 = 0 convention
is never load-bearing).
-/

namespace Polyautomate

/-- Direction of a trade signal (models.py, class Signal). -/
inductive Signal where
  | buy
  | sell
  | hold
deriving DecidableEq, Repr

/-- A signal emitted by a strategy at a specific point in time
(models.py, class TradeSignal).  The diagnostic metadata mapping
(dict of rounded indicator readings) is omitted: nothing in the engine or in
any checked property reads it. -/
structure TradeSignal where
  timestamp : ℤ
  market_id : String
  token_label : String
  signal : Signal
  price_at_signal : ℚ
  confidence : ℚ
deriving DecidableEq, Repr

/-- A completed round-trip trade (models.py, class Trade). -/
structure Trade where
  signal : TradeSignal
  entry_price : ℚ
  exit_price : ℚ
  exit_timestamp : ℤ
  exit_reason : String
  fee_rate : ℚ
deriving DecidableEq, Repr

/-- Trade.gross_pnl: raw price-move P&L before fees. -/
def Trade.gross_pnl (t : Trade) : ℚ :=
  let raw := t.exit_price - t.entry_price
  if t.signal.signal = Signal.buy then raw else -raw

/-- Trade.pnl: profit / loss net of fees; round-trip cost is
fee_rate * (entry_price + exit_price). -/
def Trade.pnl (t : Trade) : ℚ :=
  t.gross_pnl - t.fee_rate * (t.entry_price + t.exit_price)

/-- BacktestResult.win_rate: fraction of trades with positive net pnl,
0.0 for an empty trade list. -/
def win_rate (trades : List Trade) : ℚ :=
  if trades = [] then 0
  else (trades.countP (fun t => decide (0 < t.pnl)) : ℚ) / (trades.length : ℚ)

/-- BacktestResult.total_pnl. -/
def total_pnl (trades : List Trade) : ℚ :=
  (trades.map Trade.pnl).sum

/-- BacktestResult.avg_pnl: mean net pnl, 0.0 for an empty trade list. -/
def avg_pnl (trades : List Trade) : ℚ :=
  if trades = [] then 0 else total_pnl trades / (trades.length : ℚ)

/-- One step of BacktestResult.max_drawdown's loop: state is
(cumulative, peak, max_dd). -/
def drawdown_step (st : ℚ × ℚ × ℚ) (pnl : ℚ) : ℚ × ℚ × ℚ :=
  let cumulative := st.1 + pnl
  let peak := if st.2.1 < cumulative then cumulative else st.2.1
  let dd := peak - cumulative
  let max_dd := if st.2.2 < dd then dd else st.2.2
  (cumulative, peak, max_dd)

/-- BacktestResult.max_drawdown: maximum peak-to-trough drawdown of the
cumulative pnl, 0.0 for an empty trade list. -/
def max_drawdown (trades : List Trade) : ℚ :=
  if trades = [] then 0
  else ((trades.map Trade.pnl).foldl drawdown_step (0, 0, 0)).2.2

/-- The variance of per-trade pnl used inside BacktestResult.sharpe_ratio
(sum of squared deviations over n-1; only meaningful for two or more trades). -/
def pnl_variance (trades : List Trade) : ℚ :=
  let pnls := trades.map Trade.pnl
  let mean := pnls.sum / (pnls.length : ℚ)
  (pnls.map (fun p => (p - mean) ^ 2)).sum / ((pnls.length - 1 : ℕ) : ℚ)

/-- BacktestResult.sharpe_ratio: mean / std of per-trade pnl; 0.0 with fewer
than two trades or zero standard deviation.  sqrtQ stands for the float
square root applied by variance ** 0.5. -/
def sharpe_ratio (sqrtQ : ℚ → ℚ) (trades : List Trade) : ℚ :=
  if trades.length < 2 then 0
  else
    let pnls := trades.map Trade.pnl
    let mean := pnls.sum / (pnls.length : ℚ)
    let std := sqrtQ (pnl_variance trades)
    if std = 0 then 0 else mean / std

/-- Confidence interval record (stats.py, class ConfidenceInterval). -/
structure ConfidenceInterval where
  lower : ℚ
  upper : ℚ
  n : ℕ
deriving DecidableEq, Repr

/-- stats.wilson_ci: Wilson score confidence interval for a binomial win
rate.  sqrtQ stands for math.sqrt; z is passed explicitly (the Python
default is 1.96 = 49/25). -/
def wilson_ci (sqrtQ : ℚ → ℚ) (wins n : ℕ) (z : ℚ) : ConfidenceInterval :=
  if n = 0 then ⟨0, 1, 0⟩
  else
    let p : ℚ := (wins : ℚ) / (n : ℚ)
    let denom : ℚ := 1 + z * z / (n : ℚ)
    let centre : ℚ := (p + z * z / (2 * (n : ℚ))) / denom
    let margin : ℚ :=
      z * sqrtQ (p * (1 - p) / (n : ℚ) + z * z / (4 * (n : ℚ) * (n : ℚ))) / denom
    ⟨max 0 (centre - margin), min 1 (centre + margin), n⟩

/-- One normalised price bar (engine.py, output of the extract-price-series
normaliser): timestamp and mid price. -/
structure Bar where
  ts : ℤ
  price : ℚ
deriving DecidableEq, Repr

/-- One normalised book snapshot (engine.py, output of the extract-book-series
normaliser): timestamp plus bid and ask levels as (price, size) pairs,
best-first as delivered by the provider. -/
structure Book where
  ts : ℤ
  bids : List (ℚ × ℚ)
  asks : List (ℚ × ℚ)
deriving DecidableEq, Repr

/-- engine.best_bid helper: the first bid level's price, or None when the bid
side is empty. -/
def best_bid (book : Book) : Option ℚ :=
  book.bids.head?.map (fun level => level.1)

/-- engine.best_ask helper: the first ask level's price, or None when the ask
side is empty. -/
def best_ask (book : Book) : Option ℚ :=
  book.asks.head?.map (fun level => level.1)

/-- Python's x or mid on an Optional[float] x: yields mid when x is None and
also when x is the float 0.0 (both are falsy under Python's or operator). -/
def or_mid (x : Option ℚ) (mid : ℚ) : ℚ :=
  match x with
  | none => mid
  | some v => if v = 0 then mid else v

/-- engine entry execution price: BUY pays the ask, SELL receives the bid,
with the Python or-fallback to the bar's mid price. -/
def entry_exec_price (signal : Signal) (book : Book) (mid : ℚ) : ℚ :=
  if signal = Signal.buy then or_mid (best_ask book) mid
  else or_mid (best_bid book) mid

/-- engine exit execution price (opposite side to entry): BUY exits at the
bid, SELL exits at the ask, with the same or-fallback to mid. -/
def exit_exec_price (signal : Signal) (book : Book) (mid : ℚ) : ℚ :=
  if signal = Signal.buy then or_mid (best_bid book) mid
  else or_mid (best_ask book) mid

/-- engine.py class holding the engine's single open position slot. -/
structure OpenPosition where
  signal : TradeSignal
  entry_price : ℚ
  entry_mid : ℚ
  bars_held : ℕ
deriving DecidableEq, Repr

/-- The directional move check_exit compares against its thresholds: the
current mid price minus the mid price recorded at entry, negated for a
non-BUY position. -/
def directional_move (pos : OpenPosition) (current_price : ℚ) : ℚ :=
  let price_move := current_price - pos.entry_mid
  if pos.signal.signal = Signal.buy then price_move else -price_move

/-- engine check_exit: exit reason for an open position at the current bar's
mid price, in the fixed priority take_profit, stop_loss, timeout. -/
def check_exit (pos : OpenPosition) (current_price stop_loss take_profit : ℚ)
    (hold_periods : ℕ) : Option String :=
  if take_profit ≤ directional_move pos current_price then some "take_profit"
  else if directional_move pos current_price ≤ -stop_loss then some "stop_loss"
  else if hold_periods ≤ pos.bars_held then some "timeout"
  else none

/-- Parameters of one BacktestEngine.run call (keyword arguments plus the
engine's history_window). -/
structure EngineConfig where
  history_window : ℕ
  stop_loss : ℚ
  take_profit : ℚ
  hold_periods : ℕ
  fee_rate : ℚ
deriving DecidableEq, Repr

/-- A strategy's on_step capability: timestamp, mid price, book snapshot and
the two history windows, returning an optional signal.  This is the duck-typed
BaseStrategy contract the engine is polymorphic over. -/
def Strategy : Type :=
  ℤ → ℚ → Book → List ℚ → List Book → Option TradeSignal

/-- Mutable state of the run loop: the single open-position slot, the two
bounded sliding windows and the accumulated trades. -/
structure EngineState where
  open_trade : Option OpenPosition
  price_window : List ℚ
  book_window : List Book
  trades : List Trade
deriving DecidableEq, Repr

/-- The timestamp-to-snapshot lookup the engine builds from the book series
(a Python dict comprehension, so a later snapshot with the same timestamp
wins); missing timestamps default to an empty book. -/
def book_at (books : List Book) (ts : ℤ) : Book :=
  (books.reverse.find? (fun b => decide (b.ts = ts))).getD ⟨ts, [], []⟩

/-- One iteration of BacktestEngine.run's bar loop: push the bar into the
sliding windows (evicting the oldest entry past history_window), close the
open position if an exit fires, then — entering at most once per bar, and only
with a full window — ask the strategy for a signal, and finally bump
bars_held of any open position. -/
def step_bar (cfg : EngineConfig) (strat : Strategy) (books : List Book)
    (st : EngineState) (bar : Bar) : EngineState :=
  let book := book_at books bar.ts
  let pw0 := st.price_window ++ [bar.price]
  let bw0 := st.book_window ++ [book]
  let pw := if cfg.history_window < pw0.length then pw0.drop 1 else pw0
  let bw := if cfg.history_window < pw0.length then bw0.drop 1 else bw0
  let afterExit : Option OpenPosition × List Trade :=
    match st.open_trade with
    | some pos =>
      match check_exit pos bar.price cfg.stop_loss cfg.take_profit cfg.hold_periods with
      | some reason =>
        let exec_exit := exit_exec_price pos.signal.signal book bar.price
        (none,
         st.trades ++ [⟨pos.signal, pos.entry_price, exec_exit, bar.ts, reason, cfg.fee_rate⟩])
      | none => (some pos, st.trades)
    | none => (none, st.trades)
  let afterEntry : Option OpenPosition :=
    match afterExit.1 with
    | some pos => some pos
    | none =>
      if cfg.history_window ≤ pw.length then
        match strat bar.ts bar.price book pw bw with
        | some signal =>
          if signal.signal ≠ Signal.hold then
            some ⟨signal, entry_exec_price signal.signal book bar.price, bar.price, 0⟩
          else none
        | none => none
      else none
  let afterHold := afterEntry.map (fun p => { p with bars_held := p.bars_held + 1 })
  ⟨afterHold, pw, bw, afterExit.2⟩

/-- The bar loop of BacktestEngine.run (engine.py simulation loop), starting
from the empty state. -/
def run_loop (cfg : EngineConfig) (strat : Strategy) (books : List Book)
    (bars : List Bar) : EngineState :=
  bars.foldl (step_bar cfg strat books) ⟨none, [], [], []⟩

/-- BacktestEngine.run after normalisation: run the bar loop, then force-close
any position still open at the last bar with exit_reason end_of_data. -/
def run_backtest (cfg : EngineConfig) (strat : Strategy) (books : List Book)
    (bars : List Bar) : EngineState :=
  let st := run_loop cfg strat books bars
  match st.open_trade, bars.getLast? with
  | some pos, some last_bar =>
    let last_book := book_at books last_bar.ts
    let exec_exit := exit_exec_price pos.signal.signal last_book last_bar.price
    { st with
      open_trade := none,
      trades := st.trades ++
        [⟨pos.signal, pos.entry_price, exec_exit, last_bar.ts, "end_of_data", cfg.fee_rate⟩] }
  | _, _ => st

/-- indicators.rsi: Relative Strength Index from simple average gain/loss over
the trailing period deltas; None when fewer than period+1 prices; an average
loss of exactly zero yields 100. -/
def rsi (prices : List ℚ) (period : ℕ) : Option ℚ :=
  if prices.length < period + 1 then none
  else
    let window := prices.drop (prices.length - (period + 1))
    let deltas := (window.zip window.tail).map (fun ab => ab.2 - ab.1)
    let gains := deltas.filter (fun d => decide (0 < d))
    let losses := (deltas.filter (fun d => decide (¬ 0 < d))).map (fun d => -d)
    let avg_gain := gains.sum / (period : ℚ)
    let avg_loss := losses.sum / (period : ℚ)
    if avg_loss = 0 then some 100
    else some (100 - 100 / (1 + avg_gain / avg_loss))

/-- indicators.BollingerBands result record. -/
structure BollingerBands where
  upper : ℚ
  mid : ℚ
  lower : ℚ
  z : ℚ
deriving DecidableEq, Repr

/-- indicators.bollinger: bands and z-score of the last price over the
trailing period window; None when fewer than period prices.  The band width
is n_std times the square root of the mean squared deviation over the window
(sqrtQ stands for math.sqrt). -/
def bollinger (sqrtQ : ℚ → ℚ) (prices : List ℚ) (period : ℕ) (n_std : ℚ) :
    Option BollingerBands :=
  if prices.length < period then none
  else
    let window := prices.drop (prices.length - period)
    let mid := window.sum / (period : ℚ)
    let std := sqrtQ ((window.map (fun p => (p - mid) ^ 2)).sum / (period : ℚ))
    if std = 0 then some ⟨mid, mid, mid, 0⟩
    else some ⟨mid + n_std * std, mid, mid - n_std * std,
               (prices.getLast?.getD 0 - mid) / std⟩

/-- indicators.MACDResult record. -/
structure MACDResult where
  macd : ℚ
  signal : ℚ
  histogram : ℚ
deriving DecidableEq, Repr

/-- indicators ema helper: exponential moving average seeded at the first
element of the slice. -/
def ema (values : List ℚ) (period : ℕ) : ℚ :=
  let k : ℚ := 2 / ((period : ℚ) + 1)
  values.tail.foldl (fun e v => v * k + e * (1 - k)) (values.headD 0)

/-- indicators.macd: MACD line, signal line and histogram; None with fewer
than slow + signal_period prices. -/
def macd (prices : List ℚ) (fast slow signal_period : ℕ) : Option MACDResult :=
  if prices.length < slow + signal_period then none
  else
    let macd_series :=
      (List.range' (slow - 1) (prices.length - (slow - 1))).map
        (fun i => ema (prices.take (i + 1)) fast - ema (prices.take (i + 1)) slow)
    if macd_series.length < signal_period then none
    else
      let sig := ema macd_series signal_period
      let m := macd_series.getLast?.getD 0
      some ⟨m, sig, m - sig⟩

/-- indicators.momentum: rate of change over the trailing period; None when
history is short or the base price is zero. -/
def momentum (prices : List ℚ) (period : ℕ) : Option ℚ :=
  if prices.length < period + 1 then none
  else
    let base := (prices.drop (prices.length - (period + 1))).headD 0
    if base = 0 then none
    else some ((prices.getLast?.getD 0 - base) / base)

/-- indicators.realized_vol: square root of the sample variance (divisor
n-1) of the log-returns over the trailing period+1 prices, skipping pairs
with a non-positive price; None with fewer than two usable log-returns.
sqrtQ and logQ stand for math.sqrt and math.log. -/
def realized_vol (sqrtQ logQ : ℚ → ℚ) (prices : List ℚ) (period : ℕ) :
    Option ℚ :=
  if prices.length < period + 1 then none
  else
    let window := prices.drop (prices.length - (period + 1))
    let log_ret := (window.zip window.tail).filterMap
      (fun ab => if 0 < ab.1 ∧ 0 < ab.2 then some (logQ (ab.2 / ab.1)) else none)
    if log_ret.length < 2 then none
    else
      let mean := log_ret.sum / (log_ret.length : ℚ)
      some (sqrtQ ((log_ret.map (fun r => (r - mean) ^ 2)).sum /
                   ((log_ret.length - 1 : ℕ) : ℚ)))

/-- Total notional of a list of (price, size) levels. -/
def notional (levels : List (ℚ × ℚ)) : ℚ :=
  (levels.map (fun level => level.1 * level.2)).sum

/-- indicators.book_spread: best ask minus best bid over the whole level
lists; None when either side is empty. -/
def book_spread (book : Book) : Option ℚ :=
  if book.bids = [] ∨ book.asks = [] then none
  else some (((book.asks.map (fun a => a.1)).min?).getD 0 -
             ((book.bids.map (fun b => b.1)).max?).getD 0)

/-- indicators.book_imbalance: bid notional over total notional; 0.5 when the
total notional is not positive. -/
def book_imbalance (book : Book) : ℚ :=
  let bid_vol := notional book.bids
  let ask_vol := notional book.asks
  let total := bid_vol + ask_vol
  if 0 < total then bid_vol / total else 1 / 2

/-- indicators.book_pressure: log of top-depth bid notional over top-depth ask
notional; 0 when either top-depth notional is not positive (in particular when
either side is empty).  logQ stands for math.log. -/
def book_pressure (logQ : ℚ → ℚ) (book : Book) (depth : ℕ) : ℚ :=
  let bids := (book.bids.mergeSort (fun a b => decide (b.1 ≤ a.1))).take depth
  let asks := (book.asks.mergeSort (fun a b => decide (a.1 ≤ b.1))).take depth
  let bid_p := notional bids
  let ask_p := notional asks
  if bid_p ≤ 0 ∨ ask_p ≤ 0 then 0 else logQ (bid_p / ask_p)

/-- indicators.FEATURE_NAMES: order of the composite feature vector. -/
def FEATURE_NAMES : List String :=
  ["rsi", "bb_z", "macd_hist", "momentum", "realized_vol",
   "book_imbalance", "book_pressure", "book_spread"]

/-- Indicator hyper-parameters threaded through compute_features. -/
structure IndicatorParams where
  rsi_period : ℕ
  bb_period : ℕ
  macd_fast : ℕ
  macd_slow : ℕ
  macd_signal : ℕ
  mom_period : ℕ
  vol_period : ℕ
  book_depth : ℕ
deriving DecidableEq, Repr

/-- indicators.compute_features: the composite 8-feature vector for one bar,
aligned with FEATURE_NAMES; entries are None when insufficient history is
available. -/
def compute_features (sqrtQ logQ : ℚ → ℚ) (p : IndicatorParams)
    (price_history : List ℚ) (book : Book) : List (Option ℚ) :=
  let bb := bollinger sqrtQ price_history p.bb_period 2
  let mc := macd price_history p.macd_fast p.macd_slow p.macd_signal
  [rsi price_history p.rsi_period,
   bb.map (fun b => b.z),
   mc.map (fun m => m.histogram),
   momentum price_history p.mom_period,
   realized_vol sqrtQ logQ price_history p.vol_period,
   some (book_imbalance book),
   some (book_pressure logQ book p.book_depth),
   book_spread book]

/-- Modelled from the spec: trend_slope is imported by the RSIMeanReversion
and MACDMomentum strategies from the indicator library, but its definition is
not among the provided sources.  The spec describes it as the trailing price
trend, i.e. the net price change over the last trend_lookback bars, and the
indicator library contract as returning an explicit absent value when history
is shorter than the required minimum (here lookback+1 prices). -/
def trend_slope (prices : List ℚ) (lookback : ℕ) : Option ℚ :=
  if prices.length < lookback + 1 then none
  else some (prices.getLast?.getD 0 -
             (prices.drop (prices.length - (lookback + 1))).headD 0)

/-- optimal_entry.EntryProfile: per-feature mean and std fingerprint of
optimal entry bars. -/
structure EntryProfile where
  signal : Signal
  feature_names : List String
  mean : List ℚ
  std : List ℚ
  n_samples : ℕ
  training_market : String
deriving DecidableEq, Repr

/-- One step of EntryProfile.distance's accumulation over a
(feature, (mean, std)) triple: absent features and zero-std features are
skipped, others contribute their squared standardised deviation and bump the
count. -/
def distance_step (tc : ℚ × ℕ) (triple : Option ℚ × (ℚ × ℚ)) : ℚ × ℕ :=
  match triple.1 with
  | none => tc
  | some x =>
    if triple.2.2 = 0 then tc
    else (tc.1 + ((x - triple.2.1) / triple.2.2) ^ 2, tc.2 + 1)

/-- optimal_entry.EntryProfile.distance: standardised Euclidean distance from
the profile; some (sqrtQ (total/count)) over the contributing features, or
None — modelling the float infinity the source returns — when no feature
contributes. -/
def EntryProfile.distance (sqrtQ : ℚ → ℚ) (prof : EntryProfile)
    (features : List (Option ℚ)) : Option ℚ :=
  let acc := (features.zip (prof.mean.zip prof.std)).foldl distance_step (0, 0)
  if 0 < acc.2 then some (sqrtQ (acc.1 / (acc.2 : ℚ))) else none

/-- Per-column (mean, std) aggregation of optimal_entry.scan_optimal_entries:
mean 0 and std 0 for a column with no valid samples, std 0 for a single
sample, otherwise the sample standard deviation (divisor n-1). -/
def column_stats (sqrtQ : ℚ → ℚ) (feature_matrix : List (List (Option ℚ)))
    (col : ℕ) : ℚ × ℚ :=
  let vals := feature_matrix.filterMap (fun row => row.getD col none)
  if vals = [] then (0, 0)
  else
    let mu := vals.sum / (vals.length : ℚ)
    if vals.length < 2 then (mu, 0)
    else (mu, sqrtQ ((vals.map (fun v => (v - mu) ^ 2)).sum /
                     ((vals.length - 1 : ℕ) : ℚ)))

/-- The feature matrix collected by optimal_entry.scan_optimal_entries: for
every bar index with a full indicator window and a full forward window, if the
price moves at least min_gain in the signal direction within the next
forward_window bars, the bar's composite feature vector is recorded. -/
def scan_feature_matrix (sqrtQ logQ : ℚ → ℚ) (price_series : List Bar)
    (book_series : List Book) (signal : Signal) (min_gain : ℚ)
    (forward_window indicator_window : ℕ) (p : IndicatorParams) :
    List (List (Option ℚ)) :=
  let prices := price_series.map (fun b => b.price)
  (List.range' indicator_window
      (prices.length - forward_window - indicator_window)).filterMap
    (fun i =>
      let entry_price := prices.getD i 0
      let future_prices := (prices.drop (i + 1)).take forward_window
      let triggered :=
        if signal = Signal.buy then
          future_prices.any (fun q => decide (entry_price + min_gain ≤ q))
        else future_prices.any (fun q => decide (q ≤ entry_price - min_gain))
      if triggered then
        let ts := (price_series.getD i ⟨0, 0⟩).ts
        let book := book_at book_series ts
        let price_hist := (prices.drop (i - indicator_window)).take (indicator_window + 1)
        some (compute_features sqrtQ logQ p price_hist book)
      else none)

/-- optimal_entry.scan_optimal_entries: mine optimal entry bars and aggregate
their feature vectors into an EntryProfile.  The source's ValueError paths
(HOLD direction, or no qualifying bar found) are modelled as None. -/
def scan_optimal_entries (sqrtQ logQ : ℚ → ℚ) (price_series : List Bar)
    (book_series : List Book) (signal : Signal) (min_gain : ℚ)
    (forward_window indicator_window : ℕ) (p : IndicatorParams)
    (training_market : String) : Option EntryProfile :=
  if signal = Signal.hold then none
  else
    let feature_matrix := scan_feature_matrix sqrtQ logQ price_series
      book_series signal min_gain forward_window indicator_window p
    if feature_matrix = [] then none
    else
      let stats := (List.range FEATURE_NAMES.length).map
        (column_stats sqrtQ feature_matrix)
      some ⟨signal, FEATURE_NAMES, stats.map Prod.fst, stats.map Prod.snd,
            feature_matrix.length, training_market⟩

/-- Configuration of rsi_mean_reversion.RSIMeanReversionStrategy. -/
structure RSIMeanReversionStrategy where
  rsi_period : ℕ
  oversold_threshold : ℚ
  overbought_threshold : ℚ
  bb_confirm : Bool
  bb_period : ℕ
  bb_z_min : ℚ
  book_pressure_confirm : Bool
  book_depth : ℕ
  min_price : ℚ
  max_price : ℚ
  trend_filter : Bool
  trend_lookback : ℕ
  trend_threshold : ℚ
deriving DecidableEq, Repr

/-- rsi_mean_reversion.RSIMeanReversionStrategy.on_step: skip bars outside the
price band, require an RSI reading past a threshold, then apply the optional
trend, Bollinger and book-pressure filters before emitting a signal whose
confidence scales with how far RSI is past its threshold.  The emitted
diagnostic metadata is omitted (see TradeSignal). -/
def RSIMeanReversionStrategy.on_step (sqrtQ logQ : ℚ → ℚ)
    (s : RSIMeanReversionStrategy) (timestamp : ℤ) (price : ℚ) (book : Book)
    (price_history : List ℚ) (_book_history : List Book) : Option TradeSignal :=
  if price < s.min_price ∨ s.max_price < price then none
  else
    match rsi price_history s.rsi_period with
    | none => none
    | some rsi_val =>
      let is_oversold := decide (rsi_val < s.oversold_threshold)
      let is_overbought := decide (s.overbought_threshold < rsi_val)
      if !is_oversold && !is_overbought then none
      else if s.trend_filter &&
          (match trend_slope price_history s.trend_lookback with
           | some slope =>
             (is_overbought && decide (s.trend_threshold ≤ slope)) ||
             (is_oversold && decide (slope ≤ -s.trend_threshold))
           | none => false) then none
      else if s.bb_confirm &&
          (match bollinger sqrtQ price_history s.bb_period 2 with
           | none => true
           | some bb =>
             (is_oversold && decide (-s.bb_z_min < bb.z)) ||
             (is_overbought && decide (bb.z < s.bb_z_min))) then none
      else if s.book_pressure_confirm &&
          (let bp := book_pressure logQ book s.book_depth
           (is_oversold && decide (bp ≤ 0)) ||
           (is_overbought && decide (0 ≤ bp))) then none
      else if is_oversold then
        some ⟨timestamp, "", "", Signal.buy, price,
              min 1 ((s.oversold_threshold - rsi_val) / s.oversold_threshold)⟩
      else
        some ⟨timestamp, "", "", Signal.sell, price,
              min 1 ((rsi_val - s.overbought_threshold) /
                     (100 - s.overbought_threshold))⟩

/-- Population variance of a list: mean squared deviation with divisor n. -/
def population_variance (xs : List ℚ) : ℚ :=
  let mu := xs.sum / (xs.length : ℚ)
  (xs.map (fun x => (x - mu) ^ 2)).sum / (xs.length : ℚ)

/-- Sample variance of a list: squared deviations with divisor n-1. -/
def sample_variance (xs : List ℚ) : ℚ :=
  let mu := xs.sum / (xs.length : ℚ)
  (xs.map (fun x => (x - mu) ^ 2)).sum / ((xs.length - 1 : ℕ) : ℚ)

/-- Bollinger as the spec's words describe it: band width from the sample
standard deviation (divisor n-1) of the window.  For comparison with the
source's bollinger. -/
def bollinger_sample_spec (sqrtQ : ℚ → ℚ) (prices : List ℚ) (period : ℕ)
    (n_std : ℚ) : Option BollingerBands :=
  if prices.length < period then none
  else
    let window := prices.drop (prices.length - period)
    let mid := window.sum / (window.length : ℚ)
    let std := sqrtQ (sample_variance window)
    if std = 0 then some ⟨mid, mid, mid, 0⟩
    else some ⟨mid + n_std * std, mid, mid - n_std * std,
               (prices.getLast?.getD 0 - mid) / std⟩

/-- Bollinger with the band width written as the population standard deviation
(divisor n) of the window — the amended reading of the source. -/
def bollinger_population_spec (sqrtQ : ℚ → ℚ) (prices : List ℚ) (period : ℕ)
    (n_std : ℚ) : Option BollingerBands :=
  if prices.length < period then none
  else
    let window := prices.drop (prices.length - period)
    let mid := window.sum / (window.length : ℚ)
    let std := sqrtQ (population_variance window)
    if std = 0 then some ⟨mid, mid, mid, 0⟩
    else some ⟨mid + n_std * std, mid, mid - n_std * std,
               (prices.getLast?.getD 0 - mid) / std⟩

/-- Realized volatility written with the sample-variance helper (divisor
n-1), as both the spec's words and the source's docstring state. -/
def realized_vol_sample_spec (sqrtQ logQ : ℚ → ℚ) (prices : List ℚ)
    (period : ℕ) : Option ℚ :=
  if prices.length < period + 1 then none
  else
    let window := prices.drop (prices.length - (period + 1))
    let log_ret := (window.zip window.tail).filterMap
      (fun ab => if 0 < ab.1 ∧ 0 < ab.2 then some (logQ (ab.2 / ab.1)) else none)
    if log_ret.length < 2 then none
    else some (sqrtQ (sample_variance log_ret))

/-- Concrete RSIMeanReversion configuration used to instantiate hypothesised
theorems: short periods, default thresholds, trend filter enabled. -/
def rsiStratW : RSIMeanReversionStrategy :=
  ⟨2, 30, 70, false, 20, 1, false, 5, 3/100, 97/100, true, 2, 1/20⟩

/-- Concrete three-bar price series for the single-qualifying-bar scenario:
with indicator_window 1 and forward_window 1 only the middle bar is scanned,
and the final bar's 0.2 rise makes it qualify for a BUY at min_gain 0.1. -/
def scanPricesW : List Bar := [⟨0, 1/2⟩, ⟨1, 1/2⟩, ⟨2, 7/10⟩]

/-- Tiny indicator hyper-parameters for the single-qualifying-bar scenario. -/
def scanParamsW : IndicatorParams := ⟨1, 2, 1, 2, 1, 1, 1, 5⟩

/-- The qualifying bar's own feature vector: the same price history slice and
(empty) book snapshot the scanner used for it. -/
def scanFeatsW : List (Option ℚ) :=
  compute_features id id scanParamsW [1/2, 1/2] ⟨1, [], []⟩

/-- The profile the scanner builds from the single qualifying bar: each
feature column has at most one sample, so every std is 0. -/
def profW : EntryProfile :=
  ⟨Signal.buy, FEATURE_NAMES, [100, 0, 0, 0, 0, 1/2, 0, 0],
   [0, 0, 0, 0, 0, 0, 0, 0], 1, ""⟩

/-- Concrete completed trade used to instantiate hypothesised theorems. -/
def tradeW : Trade :=
  ⟨⟨0, "m", "YES", Signal.buy, 1/2, 1⟩, 1/2, 3/5, 1, "take_profit", 1/100⟩

/-- Concrete open position used to instantiate hypothesised theorems. -/
def posW : OpenPosition :=
  ⟨⟨0, "m", "YES", Signal.buy, 1/2, 1⟩, 13/25, 1/2, 3⟩

/-- Number of open positions held by a loop state: the engine's single slot
holds at most one. -/
def open_count (st : EngineState) : ℕ :=
  if st.open_trade.isSome then 1 else 0

/-- Concrete engine configuration used to instantiate hypothesised theorems:
window of 1 bar, 5pp stop, 10pp take profit, immediate timeout, no fee. -/
def cfgW : EngineConfig := ⟨1, 1/20, 1/10, 0, 0⟩

/-- Concrete always-BUY signal used by the witness strategy. -/
def sigW (ts : ℤ) (price : ℚ) : TradeSignal := ⟨ts, "m", "Y", Signal.buy, price, 1⟩

/-- Witness strategy: emit a BUY signal on every bar. -/
def stratW : Strategy := fun ts price _book _pw _bw => some (sigW ts price)

/-- Two flat bars used to instantiate the engine theorems. -/
def barsW : List Bar := [⟨0, 1/2⟩, ⟨1, 1/2⟩]

/-- The end-of-data trade the witness run produces for the position re-opened
on the final bar. -/
def tradeEodW : Trade := ⟨sigW 1 (1/2), 1/2, 1/2, 1, "end_of_data", 0⟩

-- ---------------------------------------------------------------------------
-- Theorems
-- ---------------------------------------------------------------------------

/-- C2: for every completed Trade, gross_pnl is exit minus entry for a BUY
signal and entry minus exit for a SELL signal, and the net pnl is gross_pnl
minus fee_rate times (entry_price + exit_price). -/
theorem trade_pnl_formula (t : Trade) :
    (t.signal.signal = Signal.buy →
      t.gross_pnl = t.exit_price - t.entry_price) ∧
    (t.signal.signal = Signal.sell →
      t.gross_pnl = t.entry_price - t.exit_price) ∧
    t.pnl = t.gross_pnl - t.fee_rate * (t.entry_price + t.exit_price) := by
  refine ⟨fun h => ?_, fun h => ?_, rfl⟩ <;> simp [Trade.gross_pnl, h]

/-- Witness for C2 at a concrete BUY trade. -/
theorem trade_pnl_formula_witness :
    tradeW.signal.signal = Signal.buy ∧
    tradeW.gross_pnl = tradeW.exit_price - tradeW.entry_price ∧
    tradeW.pnl = tradeW.gross_pnl -
      tradeW.fee_rate * (tradeW.entry_price + tradeW.exit_price) :=
  ⟨rfl, (trade_pnl_formula tradeW).1 rfl, (trade_pnl_formula tradeW).2.2⟩

/-- C3: while a position is open the exit reasons are evaluated in the fixed
priority take_profit, stop_loss, timeout, each firing exactly under the stated
condition on the directional move of the current mid price from the entry mid
price (negated for a non-BUY position), so at most one reason fires per bar. -/
theorem check_exit_priority (pos : OpenPosition) (price sl tp : ℚ) (hold : ℕ) :
    (pos.signal.signal = Signal.buy →
      directional_move pos price = price - pos.entry_mid) ∧
    (pos.signal.signal = Signal.sell →
      directional_move pos price = -(price - pos.entry_mid)) ∧
    (check_exit pos price sl tp hold = some "take_profit" ↔
      tp ≤ directional_move pos price) ∧
    (check_exit pos price sl tp hold = some "stop_loss" ↔
      ¬ tp ≤ directional_move pos price ∧ directional_move pos price ≤ -sl) ∧
    (check_exit pos price sl tp hold = some "timeout" ↔
      ¬ tp ≤ directional_move pos price ∧
      ¬ directional_move pos price ≤ -sl ∧ hold ≤ pos.bars_held) ∧
    (check_exit pos price sl tp hold = none ↔
      ¬ tp ≤ directional_move pos price ∧
      ¬ directional_move pos price ≤ -sl ∧ ¬ hold ≤ pos.bars_held) := by
  refine ⟨fun h => by simp [directional_move, h],
          fun h => by simp [directional_move, h], ?_, ?_, ?_, ?_⟩ <;>
    · unfold check_exit
      by_cases h1 : tp ≤ directional_move pos price
      · simp [h1]
      · by_cases h2 : directional_move pos price ≤ -sl
        · simp [h1, h2]
        · by_cases h3 : hold ≤ pos.bars_held
          · simp [h1, h2, h3]
          · simp [h1, h2, h3]

/-- Witness for C3 at a concrete BUY position on a take-profit bar. -/
theorem check_exit_priority_witness :
    posW.signal.signal = Signal.buy ∧
    directional_move posW (3/5) = 3/5 - posW.entry_mid ∧
    (check_exit posW (3/5) (1/20) (1/10) 24 = some "take_profit" ↔
      1/10 ≤ directional_move posW (3/5)) ∧
    check_exit posW (3/5) (1/20) (1/10) 24 = some "take_profit" := by
  refine ⟨rfl, (check_exit_priority posW (3/5) (1/20) (1/10) 24).1 rfl,
    (check_exit_priority posW (3/5) (1/20) (1/10) 24).2.2.1, ?_⟩
  rw [(check_exit_priority posW (3/5) (1/20) (1/10) 24).2.2.1]
  norm_num [directional_move, posW]

/-- C4 exhibit: with a non-empty ask side whose best price is 0, a BUY entry
executes at the bar's mid price, not at the best ask — Python's or operator
treats the float 0.0 as falsy, so the documented empty-side fallback also
fires on a zero best price. -/
theorem entry_exec_price_zero_best_ask_bug :
    best_ask ⟨0, [], [(0, 5)]⟩ = some 0 ∧
    (⟨0, [], [(0, 5)]⟩ : Book).asks ≠ [] ∧
    entry_exec_price Signal.buy ⟨0, [], [(0, 5)]⟩ (2/5) = 2/5 ∧
    (2 / 5 : ℚ) ≠ 0 := by
  refine ⟨rfl, by simp, ?_, by norm_num⟩
  simp [entry_exec_price, or_mid, best_ask]

/-- C5 counterexample: bollinger does not use the sample standard deviation.
At window [0, 1] with period 2 the code divides the squared deviations by n=2
(population), which under the square-root interpretation id yields different
bands than the sample (n-1) formula the spec states. -/
theorem bollinger_not_sample_counterexample :
    bollinger id [0, 1] 2 2 ≠ bollinger_sample_spec id [0, 1] 2 2 := by
  norm_num [bollinger, bollinger_sample_spec, sample_variance]

/-- C5 amended: bollinger computes the population standard deviation (squared
deviations divided by n) over its window, while realized_vol computes the
sample standard deviation (divided by n-1) over its log-returns. -/
theorem variance_divisors (sqrtQ logQ : ℚ → ℚ) :
    (∀ (prices : List ℚ) (period : ℕ) (n_std : ℚ),
      bollinger sqrtQ prices period n_std =
        bollinger_population_spec sqrtQ prices period n_std) ∧
    (∀ (prices : List ℚ) (period : ℕ),
      realized_vol sqrtQ logQ prices period =
        realized_vol_sample_spec sqrtQ logQ prices period) := by
  constructor
  · intro prices period n_std
    unfold bollinger bollinger_population_spec population_variance
    split_ifs with h
    · rfl
    · have hlen : (prices.drop (prices.length - period)).length = period := by
        rw [List.length_drop]; omega
      simp only [hlen]
  · intro prices period
    rfl

/-- C8 counterexample: a book with an empty bid side and positive ask notional
has imbalance 0, not the neutral 0.5 the claim states for any empty side. -/
theorem book_imbalance_empty_side_counterexample :
    (⟨0, [], [(1/2, 10)]⟩ : Book).bids = [] ∧
    book_imbalance ⟨0, [], [(1/2, 10)]⟩ = 0 ∧
    book_imbalance ⟨0, [], [(1/2, 10)]⟩ ≠ 1/2 := by
  refine ⟨rfl, ?_, ?_⟩ <;> norm_num [book_imbalance, notional]

/-- C8 amended: the book indicators are total on level lists of any length;
book_imbalance returns the neutral 0.5 exactly when the total notional is not
positive (in particular when both sides are empty), returns 0 when only the
bid side is empty with positive ask notional and 1 in the mirrored case, and
book_pressure returns 0 whenever either side is empty. -/
theorem book_indicators_empty_sides (logQ : ℚ → ℚ) (book : Book) (depth : ℕ) :
    (¬ 0 < notional book.bids + notional book.asks →
      book_imbalance book = 1/2) ∧
    (book.bids = [] → book.asks = [] → book_imbalance book = 1/2) ∧
    (book.bids = [] → 0 < notional book.asks → book_imbalance book = 0) ∧
    (book.asks = [] → 0 < notional book.bids → book_imbalance book = 1) ∧
    (book.bids = [] ∨ book.asks = [] → book_pressure logQ book depth = 0) := by
  refine ⟨?_, ?_, ?_, ?_, ?_⟩
  · intro h
    simp only [book_imbalance]
    rw [if_neg h]
  · intro hb ha
    have hb0 : notional book.bids = 0 := by rw [hb]; rfl
    have ha0 : notional book.asks = 0 := by rw [ha]; rfl
    simp only [book_imbalance, hb0, ha0, add_zero]
    norm_num
  · intro hb ha
    have hb0 : notional book.bids = 0 := by rw [hb]; rfl
    simp only [book_imbalance, hb0, zero_add]
    rw [if_pos ha]
    exact zero_div _
  · intro ha hb
    have ha0 : notional book.asks = 0 := by rw [ha]; rfl
    simp only [book_imbalance, ha0, add_zero]
    rw [if_pos hb]
    exact div_self (ne_of_gt hb)
  · intro h
    rcases h with h | h <;>
      simp [book_pressure, h, notional, List.mergeSort_nil]

/-- Witness for C8's amended statement at a concrete one-sided book. -/
theorem book_indicators_empty_sides_witness :
    (⟨0, [], [(1/2, 10)]⟩ : Book).bids = [] ∧
    (0 : ℚ) < notional (⟨0, [], [(1/2, 10)]⟩ : Book).asks ∧
    book_imbalance ⟨0, [], [(1/2, 10)]⟩ = 0 ∧
    book_pressure id ⟨0, [], [(1/2, 10)]⟩ 5 = 0 :=
  ⟨rfl, by norm_num [notional],
   (book_indicators_empty_sides id ⟨0, [], [(1/2, 10)]⟩ 5).2.2.1 rfl
     (by norm_num [notional]),
   (book_indicators_empty_sides id ⟨0, [], [(1/2, 10)]⟩ 5).2.2.2.2 (Or.inl rfl)⟩

/-- C10: the BacktestResult statistics are total on degenerate inputs — with
no trades win_rate, avg_pnl and max_drawdown are 0, and sharpe_ratio is 0
with fewer than two trades or a zero standard deviation of per-trade pnl. -/
theorem backtest_result_degenerate_stats :
    win_rate [] = 0 ∧ avg_pnl [] = 0 ∧ max_drawdown [] = 0 ∧
    (∀ (sqrtQ : ℚ → ℚ) (trades : List Trade), trades.length < 2 →
      sharpe_ratio sqrtQ trades = 0) ∧
    (∀ (sqrtQ : ℚ → ℚ) (trades : List Trade),
      sqrtQ (pnl_variance trades) = 0 → sharpe_ratio sqrtQ trades = 0) := by
  refine ⟨rfl, rfl, rfl, ?_, ?_⟩
  · intro sqrtQ trades h
    simp [sharpe_ratio, h]
  · intro sqrtQ trades h
    unfold sharpe_ratio
    split_ifs <;> simp_all

/-- Witness for C10 at concrete degenerate trade lists. -/
theorem backtest_result_degenerate_stats_witness :
    ([tradeW] : List Trade).length < 2 ∧ sharpe_ratio id [tradeW] = 0 ∧
    id (pnl_variance [tradeW, tradeW]) = 0 ∧
    sharpe_ratio id [tradeW, tradeW] = 0 := by
  have hvar : id (pnl_variance [tradeW, tradeW]) = 0 := by
    norm_num [pnl_variance, tradeW, Trade.pnl, Trade.gross_pnl]
  exact ⟨by decide,
    backtest_result_degenerate_stats.2.2.2.1 id [tradeW] (by decide),
    hvar,
    backtest_result_degenerate_stats.2.2.2.2 id [tradeW, tradeW] hvar⟩

/-- Helper for C9: a clamped interval built from a nonnegative centre and a
nonnegative margin, with the centre at most 1 + margin, is well ordered inside
the unit interval. -/
theorem clamped_interval_ordered (c m : ℚ) (hc0 : 0 ≤ c) (hm : 0 ≤ m)
    (hc1 : c ≤ 1 + m) :
    0 ≤ max 0 (c - m) ∧ max 0 (c - m) ≤ min 1 (c + m) ∧ min 1 (c + m) ≤ 1 :=
  ⟨le_max_left 0 _,
   max_le (le_min zero_le_one (by linarith))
     (le_min (by linarith) (by linarith)),
   min_le_left 1 _⟩

/-- C9: wilson_ci(0, 0) is the degenerate interval covering [0, 1]; and for
n at least 1 with wins at most n, the returned interval has
0 at most lower at most upper at most 1 — for any nonnegativity-preserving
interpretation of the square root, at the Python default z = 1.96. -/
theorem wilson_ci_bounds :
    (∀ sqrtQ : ℚ → ℚ, wilson_ci sqrtQ 0 0 (49/25) = ⟨0, 1, 0⟩) ∧
    (∀ sqrtQ : ℚ → ℚ, (∀ x : ℚ, 0 ≤ x → 0 ≤ sqrtQ x) →
      ∀ wins n : ℕ, 1 ≤ n → wins ≤ n →
        0 ≤ (wilson_ci sqrtQ wins n (49/25)).lower ∧
        (wilson_ci sqrtQ wins n (49/25)).lower ≤
          (wilson_ci sqrtQ wins n (49/25)).upper ∧
        (wilson_ci sqrtQ wins n (49/25)).upper ≤ 1) := by
  constructor
  · intro sqrtQ
    rfl
  · intro sqrtQ hsq wins n hn hw
    have hn0 : n ≠ 0 := by omega
    have hnQ : (0 : ℚ) < (n : ℚ) := by exact_mod_cast Nat.pos_of_ne_zero hn0
    set z : ℚ := 49/25 with hz
    set p : ℚ := (wins : ℚ) / (n : ℚ) with hp
    have hp0 : 0 ≤ p := div_nonneg (Nat.cast_nonneg wins) hnQ.le
    have hp1 : p ≤ 1 := by
      rw [hp, div_le_one hnQ]
      exact_mod_cast hw
    set denom : ℚ := 1 + z * z / (n : ℚ) with hdenom
    have hdpos : 0 < denom := by
      rw [hdenom]
      have : 0 ≤ z * z / (n : ℚ) := div_nonneg (by norm_num [hz]) hnQ.le
      linarith
    set c : ℚ := (p + z * z / (2 * (n : ℚ))) / denom with hc
    set m : ℚ :=
      z * sqrtQ (p * (1 - p) / (n : ℚ) + z * z / (4 * (n : ℚ) * (n : ℚ))) / denom
      with hm
    have harg : 0 ≤ p * (1 - p) / (n : ℚ) + z * z / (4 * (n : ℚ) * (n : ℚ)) := by
      have h1 : 0 ≤ p * (1 - p) := mul_nonneg hp0 (by linarith)
      have h2 : 0 ≤ z * z / (4 * (n : ℚ) * (n : ℚ)) := by
        apply div_nonneg (by norm_num [hz])
        positivity
      have h3 : 0 ≤ p * (1 - p) / (n : ℚ) := div_nonneg h1 hnQ.le
      linarith
    have hm0 : 0 ≤ m := by
      rw [hm]
      apply div_nonneg (mul_nonneg (by norm_num [hz]) (hsq _ harg)) hdpos.le
    have hc0 : 0 ≤ c := by
      rw [hc]
      apply div_nonneg _ hdpos.le
      have : 0 ≤ z * z / (2 * (n : ℚ)) := by
        apply div_nonneg (by norm_num [hz])
        positivity
      linarith
    have hc1 : c ≤ 1 := by
      rw [hc, div_le_one hdpos, hdenom]
      have hhalf : z * z / (2 * (n : ℚ)) ≤ z * z / (n : ℚ) := by
        apply div_le_div_of_nonneg_left (by norm_num [hz]) hnQ
        linarith
      linarith
    have hkey := clamped_interval_ordered c m hc0 hm0 (by linarith)
    have hci : wilson_ci sqrtQ wins n (49/25) =
        ⟨max 0 (c - m), min 1 (c + m), n⟩ := by
      simp only [wilson_ci, if_neg hn0, hc, hm, hdenom, hp, hz]
    rw [hci]
    exact hkey

/-- Witness for C9 at a concrete square-root interpretation and sample. -/
theorem wilson_ci_bounds_witness :
    wilson_ci (fun _ => 0) 0 0 (49/25) = ⟨0, 1, 0⟩ ∧
    ((∀ x : ℚ, 0 ≤ x → 0 ≤ (fun _ : ℚ => (0 : ℚ)) x) ∧ 1 ≤ 2 ∧ 1 ≤ 2 ∧
      0 ≤ (wilson_ci (fun _ => 0) 1 2 (49/25)).lower ∧
      (wilson_ci (fun _ => 0) 1 2 (49/25)).lower ≤
        (wilson_ci (fun _ => 0) 1 2 (49/25)).upper ∧
      (wilson_ci (fun _ => 0) 1 2 (49/25)).upper ≤ 1) :=
  ⟨wilson_ci_bounds.1 (fun _ => 0),
   fun _ _ => le_refl 0, by norm_num, by norm_num,
   (wilson_ci_bounds.2 (fun _ => 0) (fun _ _ => le_refl 0) 1 2 (by norm_num)
     (by norm_num)).1,
   (wilson_ci_bounds.2 (fun _ => 0) (fun _ _ => le_refl 0) 1 2 (by norm_num)
     (by norm_num)).2.1,
   (wilson_ci_bounds.2 (fun _ => 0) (fun _ _ => le_refl 0) 1 2 (by norm_num)
     (by norm_num)).2.2⟩

/-- C7: with the trend filter enabled, an overbought RSI reading together
with a net price change over the trend lookback of at least trend_threshold
(a strong uptrend) yields no signal from RSIMeanReversionStrategy.on_step —
the SELL that the RSI reading alone would emit is suppressed. -/
theorem rsi_trend_filter_suppresses_sell (sqrtQ logQ : ℚ → ℚ)
    (s : RSIMeanReversionStrategy) (timestamp : ℤ) (price : ℚ) (book : Book)
    (price_history : List ℚ) (book_history : List Book) (rsi_val slope : ℚ)
    (htf : s.trend_filter = true)
    (hrsi : rsi price_history s.rsi_period = some rsi_val)
    (hob : s.overbought_threshold < rsi_val)
    (hslope : trend_slope price_history s.trend_lookback = some slope)
    (hstrong : s.trend_threshold ≤ slope) :
    RSIMeanReversionStrategy.on_step sqrtQ logQ s timestamp price book
      price_history book_history = none := by
  by_cases hband : price < s.min_price ∨ s.max_price < price
  · simp [RSIMeanReversionStrategy.on_step, hband]
  · simp [RSIMeanReversionStrategy.on_step, if_neg hband, hrsi, hslope, htf,
          hob, hstrong, not_lt.mpr hob.le]

/-- Witness for C7: a strictly rising short history gives RSI 100 (overbought)
and a trailing net move of 1/5 (at least the 1/20 threshold), and on_step
emits nothing. -/
theorem rsi_trend_filter_suppresses_sell_witness :
    rsiStratW.trend_filter = true ∧
    rsi [1/10, 2/10, 3/10] rsiStratW.rsi_period = some 100 ∧
    rsiStratW.overbought_threshold < 100 ∧
    trend_slope [1/10, 2/10, 3/10] rsiStratW.trend_lookback = some (1/5) ∧
    rsiStratW.trend_threshold ≤ 1/5 ∧
    RSIMeanReversionStrategy.on_step id id rsiStratW 0 (3/10) ⟨0, [], []⟩
      [1/10, 2/10, 3/10] [] = none := by
  have hrsi : rsi [1/10, 2/10, 3/10] rsiStratW.rsi_period = some 100 := by
    norm_num [rsi, rsiStratW]
  have hslope : trend_slope [1/10, 2/10, 3/10] rsiStratW.trend_lookback =
      some (1/5) := by
    norm_num [trend_slope, rsiStratW]
  refine ⟨rfl, hrsi, by norm_num [rsiStratW], hslope, by norm_num [rsiStratW], ?_⟩
  exact rsi_trend_filter_suppresses_sell id id rsiStratW 0 (3/10) ⟨0, [], []⟩
    [1/10, 2/10, 3/10] [] 100 (1/5) rfl hrsi (by norm_num [rsiStratW]) hslope
    (by norm_num [rsiStratW])

/-- Helper: folding distance_step over triples whose std component is 0
leaves the accumulator unchanged. -/
theorem distance_fold_zero (l : List (Option ℚ × (ℚ × ℚ))) (tc : ℚ × ℕ)
    (h : ∀ t ∈ l, t.2.2 = 0) : l.foldl distance_step tc = tc := by
  induction l generalizing tc with
  | nil => rfl
  | cons a l ih =>
    have ha : a.2.2 = 0 := h a (List.mem_cons_self a l)
    have hstep : distance_step tc a = tc := by
      unfold distance_step
      cases hx : a.1 with
      | none => rfl
      | some x => simp [ha]
    rw [List.foldl_cons, hstep]
    exact ih tc (fun t ht => h t (List.mem_cons_of_mem a ht))

/-- Helper: a profile whose stds are all zero skips every feature, so its
distance is infinite (None) on every feature vector. -/
theorem distance_all_zero_std (sqrtQ : ℚ → ℚ) (prof : EntryProfile)
    (features : List (Option ℚ)) (h : ∀ x ∈ prof.std, x = 0) :
    EntryProfile.distance sqrtQ prof features = none := by
  unfold EntryProfile.distance
  rw [distance_fold_zero]
  · norm_num
  · intro t ht
    obtain ⟨x, mu, sg⟩ := t
    have h2 : (mu, sg) ∈ prof.mean.zip prof.std := (List.of_mem_zip ht).2
    exact h sg (List.of_mem_zip h2).2

/-- Helper: aggregating a single-row feature matrix yields std 0 in every
column (each column has at most one valid sample). -/
theorem column_stats_single (sqrtQ : ℚ → ℚ) (row : List (Option ℚ)) (col : ℕ) :
    (column_stats sqrtQ [row] col).2 = 0 := by
  unfold column_stats
  cases h : row.getD col none <;>
    simp only [List.filterMap_cons, List.filterMap_nil, h] <;> simp

/-- Helper: evaluation of the scanner on the concrete three-bar series — it
flags exactly the middle bar and produces the all-zero-std profile. -/
theorem scanW_eval :
    scan_optimal_entries id id scanPricesW [] Signal.buy (1/10) 1 1
      scanParamsW "" = some profW := by
  have hfeats : scanFeatsW =
      [some 100, some 0, none, some 0, none, some (1/2), some 0, none] := by
    norm_num [scanFeatsW, compute_features, scanParamsW, rsi, bollinger, macd,
      momentum, realized_vol, book_imbalance, book_pressure, book_spread,
      notional, List.mergeSort_nil, List.filterMap_cons, List.filterMap_nil]
  have hmat : scan_feature_matrix id id scanPricesW [] Signal.buy (1/10) 1 1
      scanParamsW = [scanFeatsW] := by
    have hrange : List.range' 1 ((scanPricesW.map Bar.price).length - 1 - 1) =
        [1] := rfl
    norm_num [scan_feature_matrix, scanPricesW, book_at, scanFeatsW, hrange,
      List.filterMap_cons, List.filterMap_nil]
  have hr8 : List.range 8 = [0, 1, 2, 3, 4, 5, 6, 7] := rfl
  norm_num [scan_optimal_entries, hmat, hfeats, hr8, column_stats,
    FEATURE_NAMES, profW, List.filterMap_cons, List.filterMap_nil]
  exact fun h => Signal.noConfusion h

/-- C6 counterexample: on the concrete series the scanner flags exactly one
qualifying bar (n_samples = 1), yet the profile's distance to that bar's own
feature vector is infinite (None), not 0.0 — every feature's std is 0, so
every feature is skipped. -/
theorem profile_distance_single_bar_counterexample :
    scan_optimal_entries id id scanPricesW [] Signal.buy (1/10) 1 1
      scanParamsW "" = some profW ∧
    profW.n_samples = 1 ∧
    EntryProfile.distance id profW scanFeatsW = none ∧
    ∀ d : ℚ, EntryProfile.distance id profW scanFeatsW ≠ some d := by
  have hstd : ∀ x ∈ profW.std, x = 0 := by
    intro x hx
    simpa [profW] using hx
  have hdist := distance_all_zero_std id profW scanFeatsW hstd
  exact ⟨scanW_eval, rfl, hdist, fun d h => by rw [hdist] at h; exact Option.noConfusion h⟩

/-- C6 amended: when scan_optimal_entries flags exactly one qualifying bar,
every feature std in the resulting profile is 0, so EntryProfile.distance
returns infinity (None) on every feature vector — including the qualifying
bar's own — rather than 0.0. -/
theorem single_sample_profile_distance_infinite (sqrtQ logQ sq2 : ℚ → ℚ)
    (price_series : List Bar) (book_series : List Book) (sig : Signal)
    (min_gain : ℚ) (forward_window indicator_window : ℕ) (p : IndicatorParams)
    (tm : String) (prof : EntryProfile)
    (hscan : scan_optimal_entries sqrtQ logQ price_series book_series sig
      min_gain forward_window indicator_window p tm = some prof)
    (hone : prof.n_samples = 1) :
    (∀ x ∈ prof.std, x = 0) ∧
    ∀ features, EntryProfile.distance sq2 prof features = none := by
  have hstd : ∀ x ∈ prof.std, x = 0 := by
    simp only [scan_optimal_entries] at hscan
    split_ifs at hscan with h1 h2
    · rw [Option.some_inj] at hscan
      subst hscan
      obtain ⟨row, hrow⟩ := List.length_eq_one.mp hone
      intro x hx
      simp only [List.map_map, List.mem_map] at hx
      obtain ⟨col, -, hcol⟩ := hx
      rw [← hcol]
      simp only [Function.comp_apply, hrow]
      exact column_stats_single sqrtQ row col
  exact ⟨hstd, fun features => distance_all_zero_std sq2 prof features hstd⟩

/-- Witness for C6's amended statement at the concrete single-bar scan. -/
theorem single_sample_profile_distance_infinite_witness :
    profW.n_samples = 1 ∧
    EntryProfile.distance id profW scanFeatsW = none :=
  ⟨rfl,
   (single_sample_profile_distance_infinite id id id scanPricesW [] Signal.buy
     (1/10) 1 1 scanParamsW "" profW scanW_eval rfl).2 scanFeatsW⟩

/-- Helper: check_exit only ever produces the three in-loop exit reasons. -/
theorem check_exit_reason_mem (pos : OpenPosition) (price sl tp : ℚ)
    (hold : ℕ) (r : String) (h : check_exit pos price sl tp hold = some r) :
    r = "take_profit" ∨ r = "stop_loss" ∨ r = "timeout" := by
  unfold check_exit at h
  split_ifs at h <;> simp_all

/-- Helper: one bar step only appends trades whose exit reason came from
check_exit. -/
theorem step_bar_reasons (cfg : EngineConfig) (strat : Strategy)
    (books : List Book) (st : EngineState) (bar : Bar)
    (h : ∀ t ∈ st.trades, t.exit_reason = "take_profit" ∨
      t.exit_reason = "stop_loss" ∨ t.exit_reason = "timeout") :
    ∀ t ∈ (step_bar cfg strat books st bar).trades,
      t.exit_reason = "take_profit" ∨ t.exit_reason = "stop_loss" ∨
      t.exit_reason = "timeout" := by
  intro t ht
  unfold step_bar at ht
  simp only at ht
  cases hop : st.open_trade with
  | none =>
    rw [hop] at ht
    simp only at ht
    exact h t ht
  | some pos =>
    rw [hop] at ht
    simp only at ht
    cases hce : check_exit pos bar.price cfg.stop_loss cfg.take_profit
        cfg.hold_periods with
    | none =>
      rw [hce] at ht
      simp only at ht
      exact h t ht
    | some r =>
      rw [hce] at ht
      simp only at ht
      rcases List.mem_append.mp ht with h1 | h2
      · exact h t h1
      · have ht2 : t = ⟨pos.signal, pos.entry_price,
            exit_exec_price pos.signal.signal (book_at books bar.ts) bar.price,
            bar.ts, r, cfg.fee_rate⟩ := by simpa using h2
        rw [ht2]
        exact check_exit_reason_mem pos bar.price cfg.stop_loss cfg.take_profit
          cfg.hold_periods r hce

/-- Helper: every trade recorded by the bar loop carries a take_profit,
stop_loss or timeout exit reason. -/
theorem run_loop_reasons (cfg : EngineConfig) (strat : Strategy)
    (books : List Book) :
    ∀ (bars : List Bar) (st : EngineState),
      (∀ t ∈ st.trades, t.exit_reason = "take_profit" ∨
        t.exit_reason = "stop_loss" ∨ t.exit_reason = "timeout") →
      ∀ t ∈ (bars.foldl (step_bar cfg strat books) st).trades,
        t.exit_reason = "take_profit" ∨ t.exit_reason = "stop_loss" ∨
        t.exit_reason = "timeout" := by
  intro bars
  induction bars with
  | nil => intro st h; simpa using h
  | cons b bs ih =>
    intro st h
    rw [List.foldl_cons]
    exact ih _ (step_bar_reasons cfg strat books st b h)

/-- C1: the run loop's single slot holds at most one open position at every
prefix of the bar sequence; run returns with no open position; and the last trade's
exit_reason is end_of_data exactly when a position was still open after the
final bar, any other last trade having been closed by take_profit, stop_loss
or timeout inside the loop. -/
theorem engine_run_invariants (cfg : EngineConfig) (strat : Strategy)
    (books : List Book) (bars : List Bar) :
    (∀ n : ℕ, open_count (run_loop cfg strat books (bars.take n)) ≤ 1) ∧
    (run_backtest cfg strat books bars).open_trade = none ∧
    (∀ t, (run_backtest cfg strat books bars).trades.getLast? = some t →
      (t.exit_reason = "end_of_data" ↔
        (run_loop cfg strat books bars).open_trade.isSome = true)) ∧
    (∀ t, (run_backtest cfg strat books bars).trades.getLast? = some t →
      (run_loop cfg strat books bars).open_trade = none →
      (t.exit_reason = "take_profit" ∨ t.exit_reason = "stop_loss" ∨
       t.exit_reason = "timeout")) := by
  have hreasons : ∀ t ∈ (run_loop cfg strat books bars).trades,
      t.exit_reason = "take_profit" ∨ t.exit_reason = "stop_loss" ∨
      t.exit_reason = "timeout" :=
    run_loop_reasons cfg strat books bars ⟨none, [], [], []⟩ (by simp)
  refine ⟨?_, ?_, ?_, ?_⟩
  · intro n
    unfold open_count
    split <;> omega
  · unfold run_backtest
    cases hop : (run_loop cfg strat books bars).open_trade with
    | none => cases hl : bars.getLast? <;> simp [hop, hl]
    | some pos =>
      cases hl : bars.getLast? with
      | some lb => simp [hop, hl]
      | none =>
        rcases List.getLast?_eq_none_iff.mp hl with rfl
        rw [show run_loop cfg strat books [] = ⟨none, [], [], []⟩ from rfl]
          at hop
        exact Option.noConfusion hop
  · intro t hlast
    simp only [run_backtest] at hlast
    cases hop : (run_loop cfg strat books bars).open_trade with
    | some pos =>
      cases hl : bars.getLast? with
      | some lb =>
        rw [hop, hl] at hlast
        simp only [List.getLast?_concat, Option.some_inj] at hlast
        rw [← hlast]
        simp [hop]
      | none =>
        rcases List.getLast?_eq_none_iff.mp hl with rfl
        rw [show run_loop cfg strat books [] = ⟨none, [], [], []⟩ from rfl]
          at hop
        exact Option.noConfusion hop
    | none =>
      rw [hop] at hlast
      cases hl : bars.getLast? <;> rw [hl] at hlast <;>
        simp only at hlast
      all_goals
        have hmem : t ∈ (run_loop cfg strat books bars).trades :=
          List.mem_of_mem_getLast? (Option.mem_def.mpr hlast)
      all_goals
        rcases hreasons t hmem with h1 | h1 | h1 <;>
          simp [h1, hop]
  · intro t hlast hop
    simp only [run_backtest] at hlast
    rw [hop] at hlast
    cases hl : bars.getLast? <;> rw [hl] at hlast <;> simp only at hlast <;>
      exact hreasons t (List.mem_of_mem_getLast? (Option.mem_def.mpr hlast))

/-- Witness for C1: a two-bar always-BUY run closes its first position by
timeout, re-enters on the final bar, and the force-close appends the
end_of_data trade as the last trade while the loop left a position open. -/
theorem engine_run_invariants_witness :
    (run_backtest cfgW stratW [] barsW).open_trade = none ∧
    (run_backtest cfgW stratW [] barsW).trades.getLast? = some tradeEodW ∧
    (tradeEodW.exit_reason = "end_of_data" ↔
      (run_loop cfgW stratW [] barsW).open_trade.isSome = true) := by
  have hlast : (run_backtest cfgW stratW [] barsW).trades.getLast? =
      some tradeEodW := by
    have hsig : (Signal.buy = Signal.hold) = False :=
      eq_false (fun h => Signal.noConfusion h)
    norm_num [run_backtest, run_loop, step_bar, book_at, check_exit,
      directional_move, entry_exec_price, exit_exec_price, or_mid, best_bid,
      best_ask, cfgW, stratW, barsW, sigW, tradeEodW, hsig]
  exact ⟨(engine_run_invariants cfgW stratW [] barsW).2.1, hlast,
    (engine_run_invariants cfgW stratW [] barsW).2.2.1 tradeEodW hlast⟩

end Polyautomate
